import Mathlib

/-!
Shallow embedding of the latency-critical core of the flash-loan arbitrage bot
(`core/hotpath`: types.hpp, simd_math.hpp, price_calculator.cpp,
opportunity_scanner.cpp; `hotpath/include/orderbook/SPSCQueue.hpp`), together
with theorems settling the behavioural claims about it.

Modelling conventions:
* machine integers are naturals with explicit `% 2^64` / `% 2^128` where the
  C++ wraps (uint64 limbs, __uint128_t intermediates);
* the few computations the source performs in IEEE f64 (the price-spread in
  basis points, the closed-form optimal trade size, the confidence score) are
  modelled in exact integer arithmetic; every concrete input used in a theorem
  was chosen so that the exact value and the f64 value agree (margins far above
  one ulp), and the doc comment of each such definition records the modelling;
* `std::vector` becomes `List`, output callbacks become the list of values the
  callback would receive, and the fixed-capacity arrays of the scanner become
  lists holding the occupied prefix.
-/

set_option maxHeartbeats 1600000
set_option maxRecDepth 100000

namespace FlashArb

/-- 256-bit unsigned integer as four 64-bit little-endian limbs (`types.hpp`,
struct `U256`).  Limbs are naturals; a well-formed value keeps each limb below
`2^64`, which every constructor below guarantees. -/
structure U256 where
  l0 : ℕ
  l1 : ℕ
  l2 : ℕ
  l3 : ℕ
deriving DecidableEq, Repr

/-- `U256::is_zero`: all four limbs are zero. -/
def U256.isZero (a : U256) : Bool :=
  decide (a.l0 = 0 ∧ a.l1 = 0 ∧ a.l2 = 0 ∧ a.l3 = 0)

/-- `U256::low64`: least-significant limb. -/
def U256.low64 (a : U256) : ℕ := a.l0

/-- `U256::low128`: the low 128 bits, `(limbs[1] << 64) | limbs[0]`. -/
def U256.low128 (a : U256) : ℕ := a.l1 * 2 ^ 64 + a.l0

/-- Numeric value of a `U256`. -/
def U256.toNat (a : U256) : ℕ :=
  a.l0 + a.l1 * 2 ^ 64 + a.l2 * 2 ^ 128 + a.l3 * 2 ^ 192

/-- The `U256(uint64_t)` constructor: one limb, upper limbs zero. -/
def U256.ofU64 (v : ℕ) : U256 := ⟨v, 0, 0, 0⟩

/-- Storing a `__uint128_t` into limbs 0 and 1, as `price_calculator.cpp` does:
`limbs[0] = (uint64_t)v; limbs[1] = (uint64_t)(v >> 64)`. -/
def U256.ofU128 (v : ℕ) : U256 := ⟨v % 2 ^ 64, v / 2 ^ 64 % 2 ^ 64, 0, 0⟩

/-- Truncation of a `U256` to its low 128 bits (upper limbs dropped). -/
def U256.trunc128 (a : U256) : U256 := ⟨a.l0, a.l1, 0, 0⟩

/-- Splitting an arbitrary natural into four 64-bit limbs; models
`simd::double_to_u256` on a non-negative value that the f64 computation
produced (exact for the integer values handled in this development). -/
def U256.ofN (v : ℕ) : U256 :=
  ⟨v % 2 ^ 64, v / 2 ^ 64 % 2 ^ 64, v / 2 ^ 128 % 2 ^ 64, v / 2 ^ 192 % 2 ^ 64⟩

/-- `simd::cmp_u256`: lexicographic comparison from the most significant limb
down; -1, 0 or 1. -/
def cmp_u256 (a b : U256) : ℤ :=
  if a.l3 < b.l3 then -1 else if b.l3 < a.l3 then 1
  else if a.l2 < b.l2 then -1 else if b.l2 < a.l2 then 1
  else if a.l1 < b.l1 then -1 else if b.l1 < a.l1 then 1
  else if a.l0 < b.l0 then -1 else if b.l0 < a.l0 then 1
  else 0

/-- One limb step of `simd::sub_u256`: `(uint128)a - b - borrow` wrapping
modulo `2^128`, low 64 bits kept, bit 127 as the next borrow. -/
def subLimb (a b borrow : ℕ) : ℕ × ℕ :=
  let d := (((a : ℤ) - b - borrow).emod (2 ^ 128)).toNat
  (d % 2 ^ 64, d / 2 ^ 127 % 2)

/-- `simd::sub_u256`: limb-wise wrapping subtraction with borrow. -/
def sub_u256 (a b : U256) : U256 :=
  let s0 := subLimb a.l0 b.l0 0
  let s1 := subLimb a.l1 b.l1 s0.2
  let s2 := subLimb a.l2 b.l2 s1.2
  let s3 := subLimb a.l3 b.l3 s2.2
  ⟨s0.1, s1.1, s2.1, s3.1⟩

/-- `PRICE_PRECISION` (`types.hpp`): 18-decimal fixed point. -/
def PRICE_PRECISION : ℕ := 10 ^ 18

/-- Largest `__uint128_t` value. -/
def u128Max : ℕ := 2 ^ 128 - 1

/-- `PoolReserves` (`types.hpp`). -/
structure PoolReserves where
  reserve0 : U256
  reserve1 : U256
  timestamp_ms : ℕ
  pool_id : ℕ
  dex_id : ℕ
  decimals0 : ℕ
  decimals1 : ℕ
deriving DecidableEq, Repr

/-- `PriceResult` (`types.hpp`). -/
structure PriceResult where
  price : U256
  timestamp_ms : ℕ
  pool_id : ℕ
  dex_id : ℕ
  confidence : ℤ
deriving DecidableEq, Repr

/-- Embeds `calculate_price` (`price_calculator.cpp`).  The price is the exact
uint128 computation of the source.  The confidence score is computed in the
source as `sqrt((double)low64(r0) * (double)low64(r1))` compared against
`1e18`, `1e21`, `1e24`; it is modelled by the exact equivalent comparisons of
the squared liquidity against `10^36`, `10^42`, `10^48` (only the zero /
non-zero distinction of the confidence is used by any claim, and it is
unaffected by the f64 rounding). -/
def calculate_price (r : PoolReserves) : PriceResult :=
  let base : PriceResult :=
    ⟨U256.ofU64 0, r.timestamp_ms, r.pool_id, r.dex_id, 0⟩
  if r.reserve0.isZero then base
  else
    let r0 := r.reserve0.low128
    let r1 := r.reserve1.low128
    if r0 = 0 then base
    else
      let scaled :=
        if r1 > u128Max / PRICE_PRECISION then
          let scale0 := r1 / 2 ^ 64
          let scale := if scale0 = 0 then 1 else scale0
          let r1s := r1 / scale
          let r0s := r0 / scale
          (r1s, if r0s = 0 then 1 else r0s)
        else (r1, r0)
      let price128 := scaled.1 * PRICE_PRECISION % 2 ^ 128 / scaled.2
      let liq2 := r.reserve0.low64 * r.reserve1.low64
      let conf : ℤ :=
        if liq2 ≥ 10 ^ 48 then 10000
        else if liq2 ≥ 10 ^ 42 then 9000
        else if liq2 ≥ 10 ^ 36 then 7000
        else 3000
      ⟨U256.ofU128 price128, r.timestamp_ms, r.pool_id, r.dex_id, conf⟩

/-- Embeds `calculate_swap_output` (`price_calculator.cpp`): the constant
product formula with a 0.3% fee on the low 128 bits of the arguments, all
intermediates wrapping modulo `2^128` as `__uint128_t` does. -/
def calculate_swap_output (reserve_in reserve_out amount_in : U256) : U256 :=
  if reserve_in.isZero || amount_in.isZero then U256.ofU64 0
  else
    let r_in := reserve_in.low128
    let r_out := reserve_out.low128
    let a_in := amount_in.low128
    let amount_in_with_fee := a_in * 997 % 2 ^ 128
    let numerator := r_out * amount_in_with_fee % 2 ^ 128
    let denominator := (r_in * 1000 + amount_in_with_fee) % 2 ^ 128
    if denominator = 0 then U256.ofU64 0
    else U256.ofU128 (numerator / denominator)

/-- Fuel-driven integer Newton iteration for square roots (structural
recursion, evaluable by the kernel). -/
def isqrtGo (n : ℕ) : ℕ → ℕ → ℕ
  | 0, g => g
  | fuel + 1, g =>
      let g2 := (g + n / g) / 2
      if g2 < g then isqrtGo n fuel g2 else g

/-- Integer square root by Newton iteration started at `n` itself; the fuel
1200 bounds the iteration count and is ample for every input below `2^1190`
(the products formed from 256-bit reserves stay below `2^1044`). -/
def isqrtN (n : ℕ) : ℕ :=
  if n ≤ 1 then n else isqrtGo n 1200 n

/-- Embeds `calculate_optimal_trade_size` (`price_calculator.cpp`).  The
source evaluates `sqrt(r0_buy * r1_buy * r0_sell * r1_sell * 0.997 * 0.997)
- r0_buy` in f64 (over `u256_to_double` of the reserves) and truncates the
result back through `double_to_u256`, clamping non-positive values to zero.
Modelled in exact integer arithmetic: `0.997^2 = 994009 / 1000000`, integer
square root, truncation.  At the small concrete inputs used by the scanner
theorems below the exact value was checked to coincide with the f64
evaluation; at large inputs (such as the `10^72` product of scenario S7) the
f64 result differs from the exact square root in the trailing digits (below
one part in `10^15`), so theorems over such inputs assert only interval
bounds that hold for the exact value and for the f64 value alike. -/
def calculate_optimal_trade_size (r0_buy r1_buy r0_sell r1_sell : U256) : U256 :=
  let p := r0_buy.toNat * r1_buy.toNat * r0_sell.toNat * r1_sell.toNat * 994009 / 1000000
  let g := isqrtN p
  if g ≤ r0_buy.toNat then U256.ofU64 0 else U256.ofN (g - r0_buy.toNat)

/-- Embeds `calculate_arbitrage_profit` (`price_calculator.cpp`): swap the
trade size through the buy pool, the received amount through the sell pool
(reversed), and return the gain over the trade size clamped to zero. -/
def calculate_arbitrage_profit (buy sell : PoolReserves) (trade_size : U256) : U256 :=
  let token1_received := calculate_swap_output buy.reserve0 buy.reserve1 trade_size
  let token0_received := calculate_swap_output sell.reserve1 sell.reserve0 token1_received
  if cmp_u256 token0_received trade_size > 0 then sub_u256 token0_received trade_size
  else U256.ofU64 0

/-- `ScannerConfig` (`types.hpp`). -/
structure ScannerConfig where
  min_spread_bps : ℤ
  max_slippage_bps : ℤ
  min_liquidity : U256
  max_position_size : U256
  include_same_dex : Bool
deriving DecidableEq, Repr

/-- `ArbitrageOpportunity` (`types.hpp`). -/
structure ArbitrageOpportunity where
  buy_pool_id : ℕ
  buy_dex_id : ℕ
  sell_pool_id : ℕ
  sell_dex_id : ℕ
  buy_price : U256
  sell_price : U256
  spread_bps : ℤ
  max_amount : U256
  estimated_profit : U256
  timestamp_ms : ℕ
deriving DecidableEq, Repr

/-- Embeds `detail::spread_bps_fast` (`opportunity_scanner.hpp`):
`(sell - buy) / buy * 10000` over `u256_to_double` of the two prices,
truncated toward zero into an int64, with `0` returned when the buy price is
not positive.  Modelled with exact integer arithmetic and `Int.tdiv`
(truncation toward zero); every price pair used in a concrete theorem below
was checked to give the same value under f64 evaluation. -/
def spread_bps_fast (buy sell : ℕ) : ℤ :=
  if buy = 0 then 0 else Int.tdiv (((sell : ℤ) - buy) * 10000) buy

/-- Embeds the in-line spread computation of `scan_pair_group_simd`
(`opportunity_scanner.cpp`): identical formula to `spread_bps_fast` but with
no guard on a zero buy price (the source would divide by zero in f64 and
truncate a non-finite value; that undefined case is modelled as 0 and no
theorem below touches a state with a zero price on the SIMD path). -/
def spread_bps_simd (buy sell : ℕ) : ℤ :=
  if buy = 0 then 0 else Int.tdiv (((sell : ℤ) - buy) * 10000) buy

/-- `OpportunityScanner::meets_criteria` (`opportunity_scanner.cpp`). -/
def meets_criteria (cfg : ScannerConfig) (opp : ArbitrageOpportunity) : Bool :=
  if opp.spread_bps < cfg.min_spread_bps then false
  else if opp.estimated_profit.isZero then false
  else if cmp_u256 opp.max_amount cfg.max_position_size > 0 then false
  else true

/-- `OpportunityScanner::PoolEntry` (`opportunity_scanner.hpp`). -/
structure PoolEntry where
  reserves : PoolReserves
  price : PriceResult
  valid : Bool
deriving DecidableEq, Repr

/-- `OpportunityScanner::TokenPair` (`opportunity_scanner.hpp`): a pair of
64-bit hashes with componentwise equality. -/
structure TokenPair where
  token0_hash : ℕ
  token1_hash : ℕ
deriving DecidableEq, Repr

/-- `OpportunityScanner::PairGroup`: the group key and the occupied prefix of
its `pool_indices[32]` array. -/
structure PairGroup where
  pair : TokenPair
  pool_indices : List ℕ
deriving DecidableEq, Repr

/-- The scanner state: configuration, the occupied prefix of `pools_[4096]`,
and the occupied prefix of `pair_groups_[512]`. -/
structure ScannerState where
  config : ScannerConfig
  pools : List PoolEntry
  groups : List PairGroup
deriving DecidableEq, Repr

/-- `MAX_POOLS` (`opportunity_scanner.hpp`). -/
def MAX_POOLS : ℕ := 4096

/-- `MAX_PAIRS` (`opportunity_scanner.hpp`). -/
def MAX_PAIRS : ℕ := 512

/-- An unoccupied `pools_` entry (the arrays are zero-initialised; `valid` is
false). -/
def emptyEntry : PoolEntry :=
  ⟨⟨U256.ofU64 0, U256.ofU64 0, 0, 0, 0, 0, 0⟩,
   ⟨U256.ofU64 0, 0, 0, 0, 0⟩, false⟩

/-- Array access `pools_[i]`; out-of-range indices (unreachable through
`update_pool`) read the zeroed, invalid entry. -/
def getPool (pools : List PoolEntry) (i : ℕ) : PoolEntry :=
  pools.getD i emptyEntry

/-- The pair-grouping step of `OpportunityScanner::update_pool`
(`opportunity_scanner.cpp` lines 58-92): the `TokenPair` key is built from
`(pool_id, dex_id)` — the source-level shortcut — and the pool index is added
to the matching group (capacity 32) or a fresh group (capacity `MAX_PAIRS`). -/
def add_pair (s : ScannerState) (r : PoolReserves) (i : ℕ) : ScannerState :=
  let pair : TokenPair := ⟨r.pool_id, r.dex_id⟩
  match s.groups.findIdx? fun g => decide (g.pair = pair) with
  | some gi =>
      let g := s.groups.getD gi ⟨pair, []⟩
      if i ∉ g.pool_indices ∧ g.pool_indices.length < 32 then
        { s with groups := s.groups.set gi ⟨g.pair, g.pool_indices ++ [i]⟩ }
      else s
  | none =>
      if s.groups.length < MAX_PAIRS then
        { s with groups := s.groups ++ [⟨pair, [i]⟩] }
      else s

/-- `OpportunityScanner::update_pool` (`opportunity_scanner.cpp`): find or
append the `(pool_id, dex_id)` entry, store the reserves, recompute the cached
price, and maintain the pair grouping. -/
def update_pool (s : ScannerState) (r : PoolReserves) : ScannerState :=
  let entry : PoolEntry := ⟨r, calculate_price r, true⟩
  match s.pools.findIdx? fun e =>
      decide (e.reserves.pool_id = r.pool_id ∧ e.reserves.dex_id = r.dex_id) with
  | some i => add_pair { s with pools := s.pools.set i entry } r i
  | none =>
      if s.pools.length ≥ MAX_POOLS then s
      else add_pair { s with pools := s.pools ++ [entry] } r s.pools.length

/-- The freshly constructed scanner: empty pools and groups. -/
def scanner_init (cfg : ScannerConfig) : ScannerState := ⟨cfg, [], []⟩

/-- Building one `ArbitrageOpportunity` from a buy entry, a sell entry and the
already-computed spread, exactly as each emission site of
`opportunity_scanner.cpp` fills the fields. -/
def make_opportunity (pa pb : PoolEntry) (sp : ℤ) : ArbitrageOpportunity :=
  let amt := calculate_optimal_trade_size pa.reserves.reserve0 pa.reserves.reserve1
    pb.reserves.reserve0 pb.reserves.reserve1
  { buy_pool_id := pa.reserves.pool_id
    buy_dex_id := pa.reserves.dex_id
    sell_pool_id := pb.reserves.pool_id
    sell_dex_id := pb.reserves.dex_id
    buy_price := pa.price.price
    sell_price := pb.price.price
    spread_bps := sp
    max_amount := amt
    estimated_profit := calculate_arbitrage_profit pa.reserves pb.reserves amt
    timestamp_ms := max pa.reserves.timestamp_ms pb.reserves.timestamp_ms }

/-- The body of the scalar pair loop of `scan_pair_group`
(`opportunity_scanner.cpp` lines 249-315) for one pool pair: validity check,
same-DEX filter, then both directions each guarded by the spread threshold and
`meets_criteria`, in source order. -/
def scan_pool_pair (cfg : ScannerConfig) (pa pb : PoolEntry) :
    List ArbitrageOpportunity :=
  if ¬pa.valid ∨ ¬pb.valid then []
  else if ¬cfg.include_same_dex ∧ pa.reserves.dex_id = pb.reserves.dex_id then []
  else
    let sab := spread_bps_fast pa.price.price.toNat pb.price.price.toNat
    let sba := spread_bps_fast pb.price.price.toNat pa.price.price.toNat
    (if sab ≥ cfg.min_spread_bps then
        let opp := make_opportunity pa pb sab
        if meets_criteria cfg opp then [opp] else []
      else []) ++
    (if sba ≥ cfg.min_spread_bps then
        let opp := make_opportunity pb pa sba
        if meets_criteria cfg opp then [opp] else []
      else [])

/-- The `(a, b)` position pairs enumerated by the nested loops `for a < count,
for b in (a, count)`, in loop order. -/
def pair_positions (n : ℕ) : List (ℕ × ℕ) :=
  (List.range n).flatMap fun a =>
    ((List.range n).filter fun b => a < b).map fun b => (a, b)

/-- `OpportunityScanner::scan_pair_group` (`opportunity_scanner.cpp`). -/
def scan_pair_group (cfg : ScannerConfig) (pools : List PoolEntry)
    (g : PairGroup) : List ArbitrageOpportunity :=
  (pair_positions g.pool_indices.length).flatMap fun ab =>
    scan_pool_pair cfg (getPool pools (g.pool_indices.getD ab.1 0))
      (getPool pools (g.pool_indices.getD ab.2 0))

/-- The sort order of `OpportunityScanner::scan`: the comparator passed to
`std::sort` is `cmp_u256(a.estimated_profit, b.estimated_profit) > 0`, so the
earlier element must not have smaller profit. -/
def profitGe (a b : ArbitrageOpportunity) : Prop :=
  0 ≤ cmp_u256 a.estimated_profit b.estimated_profit

instance : DecidableRel profitGe := fun a b => by
  unfold profitGe; infer_instance

/-- Embeds `OpportunityScanner::scan` (`opportunity_scanner.cpp`): every pair
group with at least two member indices is scanned with the scalar routine and
the collected opportunities are sorted by descending `estimated_profit`.
`std::sort` leaves the relative order of equal-profit elements unspecified; it
is modelled by a stable insertion sort over the matching total preorder
`profitGe`, which is exactly what libstdc++'s `std::sort` runs on ranges below
the introsort threshold of 16 elements. -/
def scanList (s : ScannerState) : List ArbitrageOpportunity :=
  ((s.groups.filter fun g => 2 ≤ g.pool_indices.length).flatMap
      (scan_pair_group s.config s.pools)).insertionSort profitGe

/-- The batch start offsets of the SIMD loop `for (b = 0; b + 4 <= count;
b += 4)`. -/
def batch_starts (n : ℕ) : List ℕ := (List.range (n / 4)).map (· * 4)

/-- One 4-lane batch of `scan_pair_group_simd` (`opportunity_scanner.cpp`
lines 348-399): for each lane, the spread threshold, then the same-DEX filter,
then `meets_criteria`; note the source checks no `valid` flag on this path. -/
def simd_lanes (cfg : ScannerConfig) (pools : List PoolEntry) (g : PairGroup)
    (a b : ℕ) : List ArbitrageOpportunity :=
  (List.range 4).flatMap fun i =>
    let pa := getPool pools (g.pool_indices.getD a 0)
    let pb := getPool pools (g.pool_indices.getD (b + i) 0)
    let sp := spread_bps_simd pa.price.price.toNat pb.price.price.toNat
    if sp ≥ cfg.min_spread_bps then
      if ¬cfg.include_same_dex ∧ pa.reserves.dex_id = pb.reserves.dex_id then []
      else
        let opp := make_opportunity pa pb sp
        if meets_criteria cfg opp then [opp] else []
    else []

/-- `OpportunityScanner::scan_pair_group_simd` (`opportunity_scanner.cpp`):
groups of fewer than four pools fall back to the scalar routine; otherwise
every index `a` is paired against each full 4-lane batch, and a batch is
skipped altogether whenever `a` lies anywhere inside it. -/
def scan_pair_group_simd (cfg : ScannerConfig) (pools : List PoolEntry)
    (g : PairGroup) : List ArbitrageOpportunity :=
  if g.pool_indices.length < 4 then scan_pair_group cfg pools g
  else
    (List.range g.pool_indices.length).flatMap fun a =>
      (batch_starts g.pool_indices.length).flatMap fun b =>
        if a = b ∨ a = b + 1 ∨ a = b + 2 ∨ a = b + 3 then []
        else simd_lanes cfg pools g a b

/-- Embeds `OpportunityScanner::scan_with_callback` (`opportunity_scanner.cpp`)
as the list of opportunities handed to the callback, in call order. -/
def scanCallbackList (s : ScannerState) : List ArbitrageOpportunity :=
  (s.groups.filter fun g => 2 ≤ g.pool_indices.length).flatMap
    (scan_pair_group_simd s.config s.pools)

/-- The best-candidate update of `get_best_opportunity`: a candidate that
passes `meets_criteria` replaces the running best when there is none yet or
when its profit compares strictly greater. -/
def consider (cfg : ScannerConfig) (best : Option ArbitrageOpportunity)
    (cand : ArbitrageOpportunity) : Option ArbitrageOpportunity :=
  if meets_criteria cfg cand then
    match best with
    | none => some cand
    | some b =>
        if cmp_u256 cand.estimated_profit b.estimated_profit > 0 then some cand
        else some b
  else best

/-- The body of the pair loop of `get_best_opportunity`
(`opportunity_scanner.cpp` lines 163-231): validity check, then both
directions guarded by the spread threshold — the source applies no same-DEX
filter on this path. -/
def best_step (cfg : ScannerConfig) (pa pb : PoolEntry)
    (best : Option ArbitrageOpportunity) : Option ArbitrageOpportunity :=
  if ¬pa.valid ∨ ¬pb.valid then best
  else
    let sab := spread_bps_fast pa.price.price.toNat pb.price.price.toNat
    let sba := spread_bps_fast pb.price.price.toNat pa.price.price.toNat
    let b1 := if sab ≥ cfg.min_spread_bps then
        consider cfg best (make_opportunity pa pb sab)
      else best
    if sba ≥ cfg.min_spread_bps then consider cfg b1 (make_opportunity pb pa sba)
    else b1

/-- Embeds `OpportunityScanner::get_best_opportunity`
(`opportunity_scanner.cpp`): a running best over all pairs of all groups of at
least two pools, returned when found. -/
def get_best_opportunity (s : ScannerState) : Option ArbitrageOpportunity :=
  (s.groups.filter fun g => 2 ≤ g.pool_indices.length).foldl
    (fun acc g =>
      (pair_positions g.pool_indices.length).foldl
        (fun acc2 ab =>
          best_step s.config (getPool s.pools (g.pool_indices.getD ab.1 0))
            (getPool s.pools (g.pool_indices.getD ab.2 0)) acc2)
        acc)
    none

/-- State of the `SPSCQueue` (`SPSCQueue.hpp`): the slot array (sequence
counter and stored datum, payloads modelled as naturals), the consumer head
and the producer tail.  The capacity is the slot count (a power of two in the
source, so the index mask `pos & (Capacity - 1)` is `pos % capacity`). -/
structure SPSCState where
  slots : List (ℕ × ℕ)
  head : ℕ
  tail : ℕ
deriving DecidableEq, Repr

/-- Queue capacity. -/
def SPSCState.cap (s : SPSCState) : ℕ := s.slots.length

/-- Embeds the `SPSCQueue` constructor: every slot sequence counter is stored
as 0 (`slot.sequence.store(0, ...)`), head and tail start at 0. -/
def spsc_new (cap : ℕ) : SPSCState := ⟨List.replicate cap (0, 0), 0, 0⟩

/-- Modelled from the spec: the specified initialisation gives each slot a
sequence counter equal to its own index ("Each slot carries a sequence counter
initialised to its index"), as the Vyukov-style protocol the push/pop code
implements requires. -/
def spsc_new_spec (cap : ℕ) : SPSCState :=
  ⟨(List.range cap).map fun i => (i, 0), 0, 0⟩

/-- `SPSCQueue::push`: read the slot at `tail`, fail when its sequence differs
from the position, otherwise store the item, publish `sequence = pos + 1` and
advance the tail. -/
def spsc_push (s : SPSCState) (x : ℕ) : SPSCState × Bool :=
  let pos := s.tail
  let slot := s.slots.getD (pos % s.cap) (0, 0)
  if (slot.1 : ℤ) - pos ≠ 0 then (s, false)
  else
    ({ s with slots := s.slots.set (pos % s.cap) (pos + 1, x), tail := pos + 1 },
     true)

/-- `SPSCQueue::pop`: read the slot at `head`, fail when its sequence differs
from `pos + 1`, otherwise take the item, publish `sequence = pos + capacity`
and advance the head. -/
def spsc_pop (s : SPSCState) : Option ℕ × SPSCState :=
  let pos := s.head
  let slot := s.slots.getD (pos % s.cap) (0, 0)
  if (slot.1 : ℤ) - (pos + 1) ≠ 0 then (none, s)
  else
    (some slot.2,
     { s with slots := s.slots.set (pos % s.cap) (pos + s.cap, slot.2),
              head := pos + 1 })

/-- Pushing a list of items one after the other, collecting each push's
success flag. -/
def spsc_push_list (s : SPSCState) : List ℕ → SPSCState × List Bool
  | [] => (s, [])
  | x :: xs =>
      let r1 := spsc_push s x
      let r2 := spsc_push_list r1.1 xs
      (r2.1, r1.2 :: r2.2)

/-- Popping `n` times in a row, collecting the results. -/
def spsc_pop_count (s : SPSCState) : ℕ → SPSCState × List (Option ℕ)
  | 0 => (s, [])
  | n + 1 =>
      let r1 := spsc_pop s
      let r2 := spsc_pop_count r1.2 n
      (r2.1, r1.1 :: r2.2)

/-! Concrete states used by the claim theorems. -/

/-- Reserves record with single-limb reserves and zero timestamp. -/
def mkRes (r0 r1 pid did : ℕ) : PoolReserves :=
  ⟨U256.ofU64 r0, U256.ofU64 r1, 0, pid, did, 18, 18⟩

/-- A valid pool entry whose cached price is the one `update_pool` would
store (`recalculate_price`). -/
def mkEntry (r0 r1 pid did : ℕ) : PoolEntry :=
  ⟨mkRes r0 r1 pid did, calculate_price (mkRes r0 r1 pid did), true⟩

/-- A configuration admitting every spread (`min_spread_bps` is an int64 in
the source and may be negative), forbidding same-DEX opportunities, position
cap 10^6. -/
def cfgOpen : ScannerConfig := ⟨-100000, 50, U256.ofU64 0, U256.ofU64 1000000, false⟩

/-- A configuration with the spec's default spread threshold of 10 bps. -/
def cfgTen : ScannerConfig := ⟨10, 50, U256.ofU64 0, U256.ofU64 1000000, false⟩

/-- The scanner after the two `update_pool` calls of scenario S3: pool 1 on
venue 1 with reserves `(1e18, 2e18)` and pool 2 on venue 2 with reserves
`(1e18, 2.1e18)` — one notional token pair on two venues. -/
def stS3 : ScannerState :=
  update_pool (update_pool (scanner_init cfgTen) (mkRes (10 ^ 18) (2 * 10 ^ 18) 1 1))
    (mkRes (10 ^ 18) (21 * 10 ^ 17) 2 2)

/-- Two profitable-to-round-trip pools on the same DEX (id 7) sharing one pair
group. -/
def stSameDex : ScannerState :=
  ⟨cfgOpen, [mkEntry 1 2 1 7, mkEntry 10 1 2 7], [⟨⟨99, 99⟩, [0, 1]⟩]⟩

/-- One pair group of exactly four valid pools on four distinct DEXes; the
pair of pools 0 and 1 admits an opportunity. -/
def stFour : ScannerState :=
  ⟨cfgOpen,
   [mkEntry 1 2 1 1, mkEntry 10 1 2 2, mkEntry 1 1 3 3, mkEntry 2 1 4 4],
   [⟨⟨99, 99⟩, [0, 1, 2, 3]⟩]⟩

/-- C1.  For every call to `update_pool` the pool is grouped under a
`TokenPair` derived from `(token0, token1)` in normalised order, not from
`(pool_id, venue_id)`, so two pools with the same token pair but different
`(pool_id, venue_id)` fall into one group and are compared by `scan`.  The
code instead builds the `TokenPair` from `(pool_id, dex_id)` (`PoolReserves`
carries no token identifiers at all): after the two S3 updates the scanner
holds two singleton groups keyed `(1,1)` and `(2,2)`, and `scan` compares
nothing and returns no opportunity. -/
theorem c1_token_pair_derived_from_pool_and_dex :
    (stS3.groups.map fun g => (g.pair.token0_hash, g.pair.token1_hash, g.pool_indices))
        = [(1, 1, [0]), (2, 2, [1])] ∧
      stS3.pools.length = 2 ∧ scanList stS3 = [] := by
  decide

/-- C2.  On a freshly constructed ring of capacity 8 the code's constructor
initialises every slot sequence to 0, not to the slot index: the first push
succeeds but the second push already reports the queue full.  With the
spec-mandated initialisation (sequence = slot index) the S5 scenario holds in
full: eight pushes succeed, the ninth fails, eight pops return the items in
FIFO order and the ninth pop reports empty. -/
theorem c2_ring_second_push_fails_with_zero_init :
    (spsc_push (spsc_new 8) 100).2 = true ∧
      (spsc_push (spsc_push (spsc_new 8) 100).1 101).2 = false ∧
      (spsc_push_list (spsc_new_spec 8) [10, 11, 12, 13, 14, 15, 16, 17]).2
        = [true, true, true, true, true, true, true, true] ∧
      (spsc_push (spsc_push_list (spsc_new_spec 8)
          [10, 11, 12, 13, 14, 15, 16, 17]).1 18).2 = false ∧
      (spsc_pop_count (spsc_push_list (spsc_new_spec 8)
          [10, 11, 12, 13, 14, 15, 16, 17]).1 9).2
        = [some 10, some 11, some 12, some 13, some 14, some 15, some 16,
           some 17, none] := by
  decide

/-- C3.  With `include_same_dex = false` no emitted opportunity may have
`buy_dex_id = sell_dex_id`.  `scan` and `scan_with_callback` enforce the
filter, but `get_best_opportunity` never checks it: on a state whose only
group holds two pools of DEX 7, `get_best_opportunity` returns an opportunity
buying and selling on DEX 7 while `scan` and `scan_with_callback` (correctly)
return nothing on the very same state. -/
theorem c3_get_best_ignores_same_venue_filter :
    ((get_best_opportunity stSameDex).map fun o => (o.buy_dex_id, o.sell_dex_id))
        = some (7, 7) ∧
      stSameDex.config.include_same_dex = false ∧
      scanList stSameDex = [] ∧ scanCallbackList stSameDex = [] := by
  decide

/-- C4.  `scan_with_callback` is claimed to perform the same enumeration as
`scan`.  On a group of exactly four pools the SIMD path's only 4-lane batch
(`b = 0`) always contains the buy index `a`, and the source skips the whole
batch instead of masking the diagonal lane: `scan` emits one admitted
opportunity while `scan_with_callback` invokes the callback zero times. -/
theorem c4_simd_batch_skip_drops_pairs :
    (scanList stFour).length = 1 ∧ scanCallbackList stFour = [] := by
  decide

/-! Helper lemmas about the embedded primitives. -/

theorem U256.toNat_ofU128 {v : ℕ} (h : v < 2 ^ 128) : (U256.ofU128 v).toNat = v := by
  unfold U256.ofU128 U256.toNat
  simp only
  have hd : v / 2 ^ 64 < 2 ^ 64 := by
    apply Nat.div_lt_of_lt_mul
    calc v < 2 ^ 128 := h
    _ = 2 ^ 64 * 2 ^ 64 := by norm_num
  rw [Nat.mod_eq_of_lt hd]
  have := Nat.mod_add_div v (2 ^ 64)
  omega

theorem U256.isZero_iff_toNat {a : U256} : a.isZero = true ↔ a.toNat = 0 := by
  unfold U256.isZero U256.toNat
  simp only [decide_eq_true_eq]
  omega

theorem U256.toNat_eq_low128 {a : U256} (h2 : a.l2 = 0) (h3 : a.l3 = 0) :
    a.toNat = a.low128 := by
  unfold U256.toNat U256.low128
  omega

theorem U256.isZero_iff_low128 {a : U256} (h2 : a.l2 = 0) (h3 : a.l3 = 0) :
    a.isZero = true ↔ a.low128 = 0 := by
  unfold U256.isZero U256.low128
  simp only [decide_eq_true_eq]
  omega

/-- Monotonicity of floor division along a cross-multiplied inequality. -/
theorem div_le_div_of_cross {n0 d0 n1 d1 : ℕ} (h : n0 * d1 ≤ n1 * d0)
    (hd0 : 0 < d0) (hd1 : 0 < d1) : n0 / d0 ≤ n1 / d1 := by
  rw [Nat.le_div_iff_mul_le hd1]
  have h1 : n0 / d0 * d1 * d0 ≤ n1 * d0 := by
    calc n0 / d0 * d1 * d0 = n0 / d0 * d0 * d1 := by ring
    _ ≤ n0 * d1 := Nat.mul_le_mul_right d1 (Nat.div_mul_le_self n0 d0)
    _ ≤ n1 * d0 := h
  exact Nat.le_of_mul_le_mul_right h1 hd0

/-- The lexicographic reading of a non-negative `cmp_u256` result. -/
theorem cmp_u256_nonneg_iff {a b : U256} : 0 ≤ cmp_u256 a b ↔
    (b.l3 < a.l3 ∨ (a.l3 = b.l3 ∧ (b.l2 < a.l2 ∨ (a.l2 = b.l2 ∧
      (b.l1 < a.l1 ∨ (a.l1 = b.l1 ∧ b.l0 ≤ a.l0)))))) := by
  unfold cmp_u256
  split_ifs <;> omega

theorem cmp_u256_ge_total (a b : U256) : 0 ≤ cmp_u256 a b ∨ 0 ≤ cmp_u256 b a := by
  rw [cmp_u256_nonneg_iff, cmp_u256_nonneg_iff]
  omega

theorem cmp_u256_ge_trans {a b c : U256} (h1 : 0 ≤ cmp_u256 a b)
    (h2 : 0 ≤ cmp_u256 b c) : 0 ≤ cmp_u256 a c := by
  rw [cmp_u256_nonneg_iff] at h1 h2 ⊢
  omega

/-- Unfolding of `calculate_price` on its main (no-scaling) branch. -/
theorem calculate_price_main {r : PoolReserves} (hz : r.reserve0.isZero = false)
    (h0 : ¬ r.reserve0.low128 = 0)
    (hg : ¬ r.reserve1.low128 > u128Max / PRICE_PRECISION) :
    calculate_price r =
      ⟨U256.ofU128 (r.reserve1.low128 * PRICE_PRECISION % 2 ^ 128 / r.reserve0.low128),
       r.timestamp_ms, r.pool_id, r.dex_id,
       if r.reserve0.low64 * r.reserve1.low64 ≥ 10 ^ 48 then 10000
       else if r.reserve0.low64 * r.reserve1.low64 ≥ 10 ^ 42 then 9000
       else if r.reserve0.low64 * r.reserve1.low64 ≥ 10 ^ 36 then 7000
       else 3000⟩ := by
  unfold calculate_price
  simp only [hz, Bool.false_eq_true, if_false, h0, hg]

/-- C6, counterexample.  The claim: `calculate_price` is zero iff `reserve0`
is zero, the price approximates `reserve1/reserve0 * 10^18` within `1e-9`
relative error for reserves in `[1, 2^60]`, and the confidence is 0 exactly in
the zero-price case.  At `reserve0 = 2^60`, `reserve1 = 1` — both inside
`[1, 2^60]` — the integer division floors `10^18 / 2^60 ≈ 0.867` to a zero
price with a non-zero `reserve0`, the relative error is 100%, and the
confidence of this zero-price pool is 3000, not 0. -/
theorem c6_zero_price_with_nonzero_reserve :
    (calculate_price (mkRes (2 ^ 60) 1 1 1)).price.toNat = 0 ∧
      (mkRes (2 ^ 60) 1 1 1).reserve0.isZero = false ∧
      (calculate_price (mkRes (2 ^ 60) 1 1 1)).confidence = 3000 := by
  decide

/-- C6, amended.  If `reserve0` is zero the result is price 0 with confidence
0.  For single-limb reserves in `[1, 2^60]` the returned price is exactly
`floor(reserve1 * 10^18 / reserve0)` — hence zero exactly when
`reserve1 * 10^18 < reserve0` even though `reserve0` is non-zero — the
confidence is never 0 on this path, and the `1e-9` relative-error bound holds
whenever `reserve0 ≤ 10^9 * reserve1`. -/
theorem c6_price_floor_exact :
    (∀ r : PoolReserves, r.reserve0.isZero = true →
        (calculate_price r).price = U256.ofU64 0 ∧ (calculate_price r).confidence = 0) ∧
      ∀ r0 r1 ts pid did d0 d1 : ℕ, 1 ≤ r0 → r0 ≤ 2 ^ 60 → 1 ≤ r1 → r1 ≤ 2 ^ 60 →
        (calculate_price ⟨U256.ofU64 r0, U256.ofU64 r1, ts, pid, did, d0, d1⟩).price.toNat
            = r1 * 10 ^ 18 / r0 ∧
          ((calculate_price ⟨U256.ofU64 r0, U256.ofU64 r1, ts, pid, did, d0, d1⟩).price.toNat = 0
            ↔ r1 * 10 ^ 18 < r0) ∧
          (calculate_price ⟨U256.ofU64 r0, U256.ofU64 r1, ts, pid, did, d0, d1⟩).confidence ≠ 0 ∧
          (r0 ≤ 10 ^ 9 * r1 →
            10 ^ 9 * (r1 * 10 ^ 18
                - (calculate_price ⟨U256.ofU64 r0, U256.ofU64 r1, ts, pid, did, d0, d1⟩).price.toNat * r0)
              ≤ r1 * 10 ^ 18) := by
  constructor
  · intro r h
    unfold calculate_price
    rw [if_pos h]
    exact ⟨rfl, rfl⟩
  · intro r0 r1 ts pid did d0 d1 h0l h0u h1l h1u
    have hz : (U256.ofU64 r0).isZero = false := by
      unfold U256.isZero U256.ofU64
      simp only [decide_eq_false_iff_not]
      omega
    have hlow : (U256.ofU64 r0).low128 = r0 := by
      unfold U256.low128 U256.ofU64
      simp
    have hlow1 : (U256.ofU64 r1).low128 = r1 := by
      unfold U256.low128 U256.ofU64
      simp
    have hguard : ¬ r1 > u128Max / PRICE_PRECISION := by
      have : u128Max / PRICE_PRECISION = 340282366920938463 * 10 ^ 3 + 463 := by
        unfold u128Max PRICE_PRECISION
        norm_num
      omega
    have hmul : r1 * PRICE_PRECISION < 2 ^ 128 := by
      unfold PRICE_PRECISION
      calc r1 * 10 ^ 18 ≤ 2 ^ 60 * 10 ^ 18 := Nat.mul_le_mul_right _ h1u
      _ < 2 ^ 128 := by norm_num
    have hq : r1 * PRICE_PRECISION / r0 < 2 ^ 128 :=
      Nat.lt_of_le_of_lt (Nat.div_le_self _ _) hmul
    have hmain := calculate_price_main
      (r := ⟨U256.ofU64 r0, U256.ofU64 r1, ts, pid, did, d0, d1⟩)
      hz (by simpa [hlow] using (by omega : ¬ r0 = 0)) (by simpa [hlow1] using hguard)
    have hprice : (calculate_price ⟨U256.ofU64 r0, U256.ofU64 r1, ts, pid, did, d0, d1⟩).price.toNat
        = r1 * 10 ^ 18 / r0 := by
      rw [hmain]
      simp only [hlow, hlow1]
      rw [Nat.mod_eq_of_lt hmul]
      exact U256.toNat_ofU128 hq
    refine ⟨hprice, ?_, ?_, ?_⟩
    · rw [hprice]
      exact Nat.div_eq_zero_iff (by omega)
    · rw [hmain]
      simp only
      split_ifs <;> norm_num
    · intro hb
      rw [hprice]
      have hdm := Nat.div_add_mod (r1 * 10 ^ 18) r0
      have hml : r1 * 10 ^ 18 % r0 < r0 := Nat.mod_lt _ (by omega)
      generalize hG : r1 * 10 ^ 18 / r0 = q at hdm ⊢
      generalize hM : r1 * 10 ^ 18 % r0 = m at hdm hml
      have hqr : q * r0 = r0 * q := Nat.mul_comm _ _
      omega


/-- C6, witness for the amended theorem at reserves `(2, 3)`. -/
theorem c6_price_floor_exact_witness :
    (calculate_price ⟨U256.ofU64 2, U256.ofU64 3, 0, 1, 1, 18, 18⟩).price.toNat
        = 3 * 10 ^ 18 / 2 ∧
      ((calculate_price ⟨U256.ofU64 2, U256.ofU64 3, 0, 1, 1, 18, 18⟩).price.toNat = 0
        ↔ 3 * 10 ^ 18 < 2) ∧
      (calculate_price ⟨U256.ofU64 2, U256.ofU64 3, 0, 1, 1, 18, 18⟩).confidence ≠ 0 ∧
      (2 ≤ 10 ^ 9 * 3 →
        10 ^ 9 * (3 * 10 ^ 18
            - (calculate_price ⟨U256.ofU64 2, U256.ofU64 3, 0, 1, 1, 18, 18⟩).price.toNat * 2)
          ≤ 3 * 10 ^ 18) :=
  c6_price_floor_exact.2 2 3 0 1 1 18 18 (by norm_num) (by norm_num) (by norm_num)
    (by norm_num)

/-- The symmetric `(1e18, 1e18)` reserve snapshot of scenario S7. -/
def resSym (pid did : ℕ) : PoolReserves := mkRes (10 ^ 18) (10 ^ 18) pid did

/-- The scanner after observing the two symmetric pools of scenario S7. -/
def stSym : ScannerState :=
  update_pool (update_pool (scanner_init cfgTen) (resSym 1 1)) (resSym 2 2)

/-- C7, counterexample.  The claim: on two symmetric `(1e18, 1e18)` pools,
`calculate_optimal_trade_size` returns `max_amount = 0`.  The implemented
closed form `sqrt(r0b*r1b*r0s*r1s*0.994009) - r0b` is about
`sqrt(0.994009) * 10^36 - 10^18 = 9.97 * 10^35`: the exact value
`997 * 10^33 - 10^18` and the source's f64 evaluation
`997000000000000073136331553138278400` both lie strictly between
`996 * 10^33` and `998 * 10^33`, so the result is in particular non-zero.
Only bounds valid for both evaluations are asserted. -/
theorem c7_symmetric_size_not_zero :
    (calculate_optimal_trade_size (U256.ofU64 (10 ^ 18)) (U256.ofU64 (10 ^ 18))
          (U256.ofU64 (10 ^ 18)) (U256.ofU64 (10 ^ 18))).isZero = false ∧
      996 * 10 ^ 33 < (calculate_optimal_trade_size (U256.ofU64 (10 ^ 18))
          (U256.ofU64 (10 ^ 18)) (U256.ofU64 (10 ^ 18)) (U256.ofU64 (10 ^ 18))).toNat ∧
      (calculate_optimal_trade_size (U256.ofU64 (10 ^ 18)) (U256.ofU64 (10 ^ 18))
          (U256.ofU64 (10 ^ 18)) (U256.ofU64 (10 ^ 18))).toNat < 998 * 10 ^ 33 := by
  decide

/-- C7, amended.  On the two symmetric pools the computed optimal size is
about `9.97 * 10^35` and non-zero (see the counterexample); for every trade
size in the interval `[996 * 10^33, 998 * 10^33]` — which contains the exact
value and the source's f64 value alike — the round trip returns zero profit,
and the scanner emits no opportunity for the pair: `scan`,
`scan_with_callback` and `get_best_opportunity` all come back empty on the
state holding both pools. -/
theorem c7_symmetric_no_profit_no_opportunity :
    (∀ s : U256, 996 * 10 ^ 33 ≤ s.toNat → s.toNat ≤ 998 * 10 ^ 33 →
        calculate_arbitrage_profit (resSym 1 1) (resSym 2 2) s = U256.ofU64 0) ∧
      scanList stSym = [] ∧ scanCallbackList stSym = [] ∧
      get_best_opportunity stSym = none := by
  refine ⟨?_, by decide, by decide, by decide⟩
  intro s h1 h2
  unfold U256.toNat at h1 h2
  have hl2 : s.l2 = 0 := by omega
  have hl3 : s.l3 = 0 := by omega
  have hsz : s.isZero = false := by
    unfold U256.isZero
    simp only [decide_eq_false_iff_not]
    omega
  have hzr : (U256.ofU64 (10 ^ 18)).isZero = false := by decide
  have hA1 : 996 * 10 ^ 33 ≤ s.low128 := by
    unfold U256.low128
    omega
  have hA2 : s.low128 ≤ 998 * 10 ^ 33 := by
    unfold U256.low128
    omega
  have hlow18 : (U256.ofU64 (10 ^ 18)).low128 = 10 ^ 18 := by decide
  have hf : s.low128 * 997 % 2 ^ 128 = s.low128 * 997 - 2 * 2 ^ 128 := by
    rw [Nat.mod_eq_sub_mod (by omega), Nat.mod_eq_sub_mod (by omega),
      Nat.mod_eq_of_lt (by omega)]
    omega
  have hden : (10 ^ 18 * 1000 + s.low128 * 997 % 2 ^ 128) % 2 ^ 128
      = 10 ^ 18 * 1000 + (s.low128 * 997 - 2 * 2 ^ 128) := by
    rw [hf, Nat.mod_eq_of_lt (by omega)]
  have hden0 : ¬ ((10 ^ 18 * 1000 + s.low128 * 997 % 2 ^ 128) % 2 ^ 128 = 0) := by
    rw [hden]
    omega
  have hswap1 : calculate_swap_output (U256.ofU64 (10 ^ 18)) (U256.ofU64 (10 ^ 18)) s
      = U256.ofU128 (10 ^ 18 * (s.low128 * 997 % 2 ^ 128) % 2 ^ 128
          / ((10 ^ 18 * 1000 + s.low128 * 997 % 2 ^ 128) % 2 ^ 128)) := by
    unfold calculate_swap_output
    rw [if_neg (show ¬ ((U256.ofU64 (10 ^ 18)).isZero || s.isZero) = true by
      rw [hzr, hsz]
      simp)]
    dsimp only
    rw [hlow18]
    rw [if_neg hden0]
  have hnum_lt : 10 ^ 18 * (s.low128 * 997 % 2 ^ 128) % 2 ^ 128 < 2 ^ 128 :=
    Nat.mod_lt _ (by norm_num)
  have hq01 : 10 ^ 18 * (s.low128 * 997 % 2 ^ 128) % 2 ^ 128
        / ((10 ^ 18 * 1000 + s.low128 * 997 % 2 ^ 128) % 2 ^ 128) = 0 ∨
      10 ^ 18 * (s.low128 * 997 % 2 ^ 128) % 2 ^ 128
        / ((10 ^ 18 * 1000 + s.low128 * 997 % 2 ^ 128) % 2 ^ 128) = 1 := by
    rw [hden]
    generalize hG : 10 ^ 18 * (s.low128 * 997 % 2 ^ 128) % 2 ^ 128 = N at hnum_lt ⊢
    have hlt : N / (10 ^ 18 * 1000 + (s.low128 * 997 - 2 * 2 ^ 128)) < 2 :=
      Nat.div_lt_of_lt_mul (by omega)
    generalize hE : N / (10 ^ 18 * 1000 + (s.low128 * 997 - 2 * 2 ^ 128)) = E at hlt ⊢
    omega
  have hfull : calculate_swap_output (U256.ofU64 (10 ^ 18)) (U256.ofU64 (10 ^ 18))
      (calculate_swap_output (U256.ofU64 (10 ^ 18)) (U256.ofU64 (10 ^ 18)) s)
        = ⟨0, 0, 0, 0⟩ := by
    rw [hswap1]
    rcases hq01 with h | h <;> rw [h] <;> decide
  have hcmp0 : cmp_u256 ⟨0, 0, 0, 0⟩ s ≤ 0 := by
    unfold cmp_u256
    dsimp only
    split_ifs <;> omega
  unfold calculate_arbitrage_profit
  dsimp only [resSym, mkRes]
  rw [hfull, if_neg (by omega : ¬ cmp_u256 ⟨0, 0, 0, 0⟩ s > 0)]

/-- C7, witness for the amended theorem: the profit is zero at the very trade
size the source's f64 evaluation produces on the symmetric pools,
`997000000000000073136331553138278400`. -/
theorem c7_symmetric_no_profit_witness :
    calculate_arbitrage_profit (resSym 1 1) (resSym 2 2)
        (U256.ofN 997000000000000073136331553138278400) = U256.ofU64 0 :=
  c7_symmetric_no_profit_no_opportunity.1
    (U256.ofN 997000000000000073136331553138278400) (by decide) (by decide)

/-- C8, counterexample.  The claim: `calculate_swap_output` is monotone
non-decreasing in `amount_in` for fixed non-zero reserves, without overflow
anomalies whenever the reserves fit in 128 bits.  With `reserve_in = 1` and
`reserve_out = 2^64` (both comfortably inside 128 bits), the uint128
intermediate `reserve_out * amount_in * 997` wraps between
`amount_in = 18502250826188115` and `18502250826188116`, and the output drops
from about `1.8 * 10^19` to 35. -/
theorem c8_swap_not_monotone_on_overflow :
    (18502250826188115 : ℕ) < 18502250826188116 ∧
      (calculate_swap_output (U256.ofU64 1) ⟨0, 1, 0, 0⟩
            (U256.ofU64 18502250826188116)).toNat
        < (calculate_swap_output (U256.ofU64 1) ⟨0, 1, 0, 0⟩
            (U256.ofU64 18502250826188115)).toNat := by
  decide

/-- C8, amended.  For 128-bit operands, `calculate_swap_output` is monotone
non-decreasing in `amount_in` as long as the two uint128 intermediates
`reserve_out * amount_in * 997` and `reserve_in * 1000 + amount_in * 997` do
not overflow at the larger amount. -/
theorem c8_swap_monotone_without_overflow :
    ∀ rin rout a a' : U256,
      rin.l2 = 0 → rin.l3 = 0 → rout.l2 = 0 → rout.l3 = 0 →
      a.l2 = 0 → a.l3 = 0 → a'.l2 = 0 → a'.l3 = 0 →
      a.toNat ≤ a'.toNat →
      rout.low128 * (a'.low128 * 997) < 2 ^ 128 →
      rin.low128 * 1000 + a'.low128 * 997 < 2 ^ 128 →
      (calculate_swap_output rin rout a).toNat
        ≤ (calculate_swap_output rin rout a').toNat := by
  intro rin rout a a' hr2 hr3 ho2 ho3 ha2 ha3 hb2 hb3 hle hov1 hov2
  by_cases hz : rin.isZero = true
  · unfold calculate_swap_output
    rw [hz]
    simp [U256.toNat, U256.ofU64]
  by_cases haz : a.isZero = true
  · unfold calculate_swap_output
    rw [haz]
    simp [U256.toNat, U256.ofU64, Nat.zero_le]
  have haz' : a'.isZero = false := by
    refine Bool.eq_false_iff.mpr fun h => haz ?_
    have h0 := U256.isZero_iff_toNat.mp h
    exact U256.isZero_iff_toNat.mpr (by omega)
  have hzf : rin.isZero = false := Bool.eq_false_iff.mpr hz
  have hazf : a.isZero = false := Bool.eq_false_iff.mpr haz
  have hAlow : a.low128 ≤ a'.low128 := by
    rw [← U256.toNat_eq_low128 ha2 ha3, ← U256.toNat_eq_low128 hb2 hb3]
    exact hle
  have hApos : 0 < a.low128 := by
    rcases Nat.eq_zero_or_pos a.low128 with h | h
    · exact absurd ((U256.isZero_iff_low128 ha2 ha3).mpr h) haz
    · exact h
  have hfee : a.low128 * 997 < 2 ^ 128 := by
    have : a.low128 * 997 ≤ a'.low128 * 997 := Nat.mul_le_mul_right _ hAlow
    omega
  have hnum : rout.low128 * (a.low128 * 997) < 2 ^ 128 := by
    have : rout.low128 * (a.low128 * 997) ≤ rout.low128 * (a'.low128 * 997) :=
      Nat.mul_le_mul_left _ (Nat.mul_le_mul_right _ hAlow)
    omega
  have hden : rin.low128 * 1000 + a.low128 * 997 < 2 ^ 128 := by
    have : a.low128 * 997 ≤ a'.low128 * 997 := Nat.mul_le_mul_right _ hAlow
    omega
  unfold calculate_swap_output
  rw [hzf, hazf, haz']
  simp only [Bool.or_self, Bool.false_or, Bool.or_false, if_false,
    Bool.false_eq_true]
  rw [Nat.mod_eq_of_lt hfee, Nat.mod_eq_of_lt (by omega : a'.low128 * 997 < 2 ^ 128),
    Nat.mod_eq_of_lt hnum, Nat.mod_eq_of_lt hov1,
    Nat.mod_eq_of_lt hden, Nat.mod_eq_of_lt hov2]
  rw [if_neg (by omega : ¬ rin.low128 * 1000 + a.low128 * 997 = 0),
    if_neg (by omega : ¬ rin.low128 * 1000 + a'.low128 * 997 = 0)]
  rw [U256.toNat_ofU128 (Nat.lt_of_le_of_lt (Nat.div_le_self _ _) hnum),
    U256.toNat_ofU128 (Nat.lt_of_le_of_lt (Nat.div_le_self _ _) hov1)]
  apply div_le_div_of_cross
  · calc rout.low128 * (a.low128 * 997) * (rin.low128 * 1000 + a'.low128 * 997)
        = rout.low128 * 997 * (rin.low128 * 1000) * a.low128
            + rout.low128 * 997 * 997 * (a.low128 * a'.low128) := by ring
    _ ≤ rout.low128 * 997 * (rin.low128 * 1000) * a'.low128
            + rout.low128 * 997 * 997 * (a.low128 * a'.low128) :=
        Nat.add_le_add_right (Nat.mul_le_mul_left _ hAlow) _
    _ = rout.low128 * (a'.low128 * 997) * (rin.low128 * 1000 + a.low128 * 997) := by
        ring
  · omega
  · omega

/-- C8, witness for the amended theorem at reserves `(5, 7)` and amounts 2
and 3. -/
theorem c8_swap_monotone_witness :
    (calculate_swap_output (U256.ofU64 5) (U256.ofU64 7) (U256.ofU64 2)).toNat
      ≤ (calculate_swap_output (U256.ofU64 5) (U256.ofU64 7) (U256.ofU64 3)).toNat :=
  c8_swap_monotone_without_overflow (U256.ofU64 5) (U256.ofU64 7) (U256.ofU64 2)
    (U256.ofU64 3) rfl rfl rfl rfl rfl rfl rfl rfl (by decide) (by decide) (by decide)

/-- C10, counterexample.  The claim: `calculate_swap_output` depends only on
the low 128 bits of each argument.  With `reserve_in = 2^128` the `is_zero`
guard reads all 256 bits: the original call returns 2 while the call on the
low-128-bit truncation (zero) returns 0. -/
theorem c10_swap_sees_high_bits :
    (calculate_swap_output ⟨0, 0, 1, 0⟩ (U256.ofU64 2) (U256.ofU64 1)).toNat = 2 ∧
      (calculate_swap_output (U256.trunc128 ⟨0, 0, 1, 0⟩) (U256.ofU64 2)
          (U256.ofU64 1)).toNat = 0 := by
  decide

theorem U256.trunc128_low128 (a : U256) : a.trunc128.low128 = a.low128 := rfl

theorem U256.trunc128_low64 (a : U256) : a.trunc128.low64 = a.low64 := rfl

theorem U256.trunc128_isZero_iff (a : U256) :
    a.trunc128.isZero = true ↔ a.low128 = 0 :=
  U256.isZero_iff_low128 rfl rfl

theorem U256.low128_eq_zero_of_isZero {a : U256} (h : a.isZero = true) :
    a.low128 = 0 := by
  unfold U256.isZero at h
  unfold U256.low128
  simp only [decide_eq_true_eq] at h
  omega

/-- `calculate_price` only inspects its reserves through `is_zero` of
`reserve0`, the two `low128` views and the two `low64` views. -/
theorem calculate_price_congr {r r' : PoolReserves}
    (hz : r.reserve0.isZero = false) (hz' : r'.reserve0.isZero = false)
    (h0 : r.reserve0.low128 = r'.reserve0.low128)
    (h1 : r.reserve1.low128 = r'.reserve1.low128)
    (h64a : r.reserve0.low64 = r'.reserve0.low64)
    (h64b : r.reserve1.low64 = r'.reserve1.low64)
    (hts : r.timestamp_ms = r'.timestamp_ms) (hpid : r.pool_id = r'.pool_id)
    (hdid : r.dex_id = r'.dex_id) :
    calculate_price r = calculate_price r' := by
  unfold calculate_price
  simp only [hz, hz', Bool.false_eq_true, if_false, h0, h1, h64a, h64b, hts,
    hpid, hdid]

/-- C10, amended.  `calculate_price` really does depend only on the low 128
bits of the two reserves (the full-width `is_zero` guard agrees with the
low-128 test on the price path because a zero `low128` already forces the
zero-price branch); in particular a `reserve0` that is a non-zero multiple of
`2^128` prices as zero with confidence 0.  For `calculate_swap_output` the
invariance holds provided the truncation does not change the full-width
`is_zero` verdict on `reserve_in` and `amount_in`, i.e. when each of them is
either completely zero or non-zero already in its low 128 bits;
`reserve_out` needs no proviso. -/
theorem c10_low128_truncation :
    (∀ r : PoolReserves,
        calculate_price ⟨r.reserve0.trunc128, r.reserve1.trunc128, r.timestamp_ms,
            r.pool_id, r.dex_id, r.decimals0, r.decimals1⟩ = calculate_price r) ∧
      (∀ r : PoolReserves, r.reserve0.isZero = false → r.reserve0.low128 = 0 →
        (calculate_price r).price = U256.ofU64 0 ∧ (calculate_price r).confidence = 0) ∧
      ∀ rin rout a : U256,
        (rin.low128 ≠ 0 ∨ rin.isZero = true) →
        (a.low128 ≠ 0 ∨ a.isZero = true) →
        calculate_swap_output rin.trunc128 rout.trunc128 a.trunc128
          = calculate_swap_output rin rout a := by
  refine ⟨?_, ?_, ?_⟩
  · intro r
    by_cases h0 : r.reserve0.isZero = true
    · have h0t : r.reserve0.trunc128.isZero = true :=
        (U256.trunc128_isZero_iff _).mpr (U256.low128_eq_zero_of_isZero h0)
      unfold calculate_price
      rw [if_pos h0t, if_pos h0]
    · have hz : r.reserve0.isZero = false := Bool.eq_false_iff.mpr h0
      by_cases hl : r.reserve0.low128 = 0
      · have h0t : r.reserve0.trunc128.isZero = true :=
          (U256.trunc128_isZero_iff _).mpr hl
        unfold calculate_price
        rw [if_pos h0t, if_neg h0]
        simp only [hl, if_pos]
      · have hzt : r.reserve0.trunc128.isZero = false :=
          Bool.eq_false_iff.mpr fun h => hl ((U256.trunc128_isZero_iff _).mp h)
        exact calculate_price_congr hzt hz (U256.trunc128_low128 _)
          (U256.trunc128_low128 _) (U256.trunc128_low64 _) (U256.trunc128_low64 _)
          rfl rfl rfl
  · intro r hz hl
    unfold calculate_price
    rw [if_neg (by simp [hz])]
    simp [hl]
  · intro rin rout a h1 h2
    by_cases hz : rin.isZero = true
    · have hzt : rin.trunc128.isZero = true :=
        (U256.trunc128_isZero_iff _).mpr (U256.low128_eq_zero_of_isZero hz)
      unfold calculate_swap_output
      rw [hz, hzt]
      simp
    · have hrl : rin.low128 ≠ 0 := h1.resolve_right hz
      by_cases haz : a.isZero = true
      · have hat : a.trunc128.isZero = true :=
          (U256.trunc128_isZero_iff _).mpr (U256.low128_eq_zero_of_isZero haz)
        unfold calculate_swap_output
        rw [haz, hat]
        simp
      · have hal : a.low128 ≠ 0 := h2.resolve_right haz
        have hzf : rin.isZero = false := Bool.eq_false_iff.mpr hz
        have hazf : a.isZero = false := Bool.eq_false_iff.mpr haz
        have hztf : rin.trunc128.isZero = false :=
          Bool.eq_false_iff.mpr fun h => hrl ((U256.trunc128_isZero_iff _).mp h)
        have hatf : a.trunc128.isZero = false :=
          Bool.eq_false_iff.mpr fun h => hal ((U256.trunc128_isZero_iff _).mp h)
        unfold calculate_swap_output
        rw [hzf, hazf, hztf, hatf]
        simp only [Bool.or_false, Bool.false_eq_true, if_false,
          U256.trunc128_low128]

/-- C10, witness for the amended theorem at `reserve_in = 2^128 + 5`,
`reserve_out = 2 * 2^128 + 7`, `amount_in = 3 * 2^128 + 2`. -/
theorem c10_low128_truncation_witness :
    calculate_swap_output (U256.trunc128 ⟨5, 0, 1, 0⟩) (U256.trunc128 ⟨7, 0, 2, 0⟩)
        (U256.trunc128 ⟨2, 0, 3, 0⟩)
      = calculate_swap_output ⟨5, 0, 1, 0⟩ ⟨7, 0, 2, 0⟩ ⟨2, 0, 3, 0⟩ :=
  c10_low128_truncation.2.2 ⟨5, 0, 1, 0⟩ ⟨7, 0, 2, 0⟩ ⟨2, 0, 3, 0⟩
    (Or.inl (by decide)) (Or.inl (by decide))

instance : IsTrans ArbitrageOpportunity profitGe :=
  ⟨fun _ _ _ h1 h2 => cmp_u256_ge_trans h1 h2⟩

instance : IsTotal ArbitrageOpportunity profitGe :=
  ⟨fun a b => cmp_u256_ge_total a.estimated_profit b.estimated_profit⟩

/-- The ranking the spec's sorting sentence describes: `estimated_profit`
descending, ties broken by `spread_bps` descending, then by `timestamp_ms`
descending. -/
def specRankOrder (x y : ArbitrageOpportunity) : Prop :=
  y.estimated_profit.toNat < x.estimated_profit.toNat ∨
    (x.estimated_profit.toNat = y.estimated_profit.toNat ∧
      (y.spread_bps < x.spread_bps ∨
        (x.spread_bps = y.spread_bps ∧ y.timestamp_ms ≤ x.timestamp_ms)))

instance : DecidableRel specRankOrder := fun x y => by
  unfold specRankOrder; infer_instance

/-- Two pair groups each yielding one admitted opportunity of profit 1; the
group scanned first yields the smaller spread (-9850 vs -9500), so insertion
order puts the smaller spread first among the profit tie. -/
def stTie : ScannerState :=
  ⟨cfgOpen,
   [mkEntry 1 2 3 3, mkEntry 100 3 4 4, mkEntry 1 2 1 1, mkEntry 10 1 2 2],
   [⟨⟨98, 98⟩, [0, 1]⟩, ⟨⟨99, 99⟩, [2, 3]⟩]⟩

/-- C9, counterexample.  The claim: `scan` results are sorted by
`estimated_profit` descending with ties broken by `spread_bps` descending and
then `timestamp_ms` descending.  The comparator the source hands to
`std::sort` compares only `estimated_profit`, so equal-profit opportunities
stay in enumeration order: on `stTie` the scan returns profits `[1, 1]` with
spreads `[-9850, -9500]` — ascending, not descending, violating the claimed
tie-break. -/
theorem c9_tie_break_not_implemented :
    ((scanList stTie).map fun o => (o.estimated_profit.toNat, o.spread_bps))
        = [(1, -9850), (1, -9500)] ∧
      ¬ (scanList stTie).Pairwise specRankOrder := by
  refine ⟨by decide, by decide⟩

/-- C9, amended.  The vector returned by `scan` is sorted by
`estimated_profit` descending (each earlier opportunity compares
greater-or-equal under `cmp_u256` on profits); the spec's further tie-break on
`spread_bps` and `timestamp_ms` is not implemented, equal-profit entries are
left in enumeration order. -/
theorem c9_scan_sorted_by_profit (s : ScannerState) :
    (scanList s).Pairwise profitGe := by
  unfold scanList
  exact List.sorted_insertionSort profitGe _

/-- Reading off the three admission conditions from a passed
`meets_criteria`. -/
theorem meets_criteria_spec {cfg : ScannerConfig} {opp : ArbitrageOpportunity}
    (h : meets_criteria cfg opp = true) :
    cfg.min_spread_bps ≤ opp.spread_bps ∧ 0 < opp.estimated_profit.toNat ∧
      cmp_u256 opp.max_amount cfg.max_position_size ≤ 0 := by
  unfold meets_criteria at h
  split_ifs at h with h1 h2 h3
  refine ⟨by omega, ?_, by omega⟩
  rcases Nat.eq_zero_or_pos opp.estimated_profit.toNat with h0 | h0
  · exact absurd (U256.isZero_iff_toNat.mpr h0) h2
  · exact h0

theorem meets_of_mem_scan_pool_pair {cfg : ScannerConfig} {pa pb : PoolEntry}
    {opp : ArbitrageOpportunity} (h : opp ∈ scan_pool_pair cfg pa pb) :
    meets_criteria cfg opp = true := by
  simp only [scan_pool_pair] at h
  split_ifs at h <;> simp_all [List.mem_append]
  all_goals rcases h with h | h <;> subst h <;> assumption

theorem meets_of_mem_scan_pair_group {cfg : ScannerConfig}
    {pools : List PoolEntry} {g : PairGroup} {opp : ArbitrageOpportunity}
    (h : opp ∈ scan_pair_group cfg pools g) : meets_criteria cfg opp = true := by
  unfold scan_pair_group at h
  rw [List.mem_flatMap] at h
  obtain ⟨ab, _, hmem⟩ := h
  exact meets_of_mem_scan_pool_pair hmem

theorem meets_of_mem_simd_lanes {cfg : ScannerConfig} {pools : List PoolEntry}
    {g : PairGroup} {a b : ℕ} {opp : ArbitrageOpportunity}
    (h : opp ∈ simd_lanes cfg pools g a b) : meets_criteria cfg opp = true := by
  simp only [simd_lanes] at h
  rw [List.mem_flatMap] at h
  obtain ⟨i, _, hmem⟩ := h
  split_ifs at hmem <;> simp_all

theorem meets_of_mem_scan_pair_group_simd {cfg : ScannerConfig}
    {pools : List PoolEntry} {g : PairGroup} {opp : ArbitrageOpportunity}
    (h : opp ∈ scan_pair_group_simd cfg pools g) :
    meets_criteria cfg opp = true := by
  unfold scan_pair_group_simd at h
  split_ifs at h
  · exact meets_of_mem_scan_pair_group h
  · rw [List.mem_flatMap] at h
    obtain ⟨a, _, h⟩ := h
    rw [List.mem_flatMap] at h
    obtain ⟨b, _, h⟩ := h
    split_ifs at h
    · simp at h
    · exact meets_of_mem_simd_lanes h

/-- The running best of `get_best_opportunity` only ever holds an opportunity
that passed `meets_criteria`. -/
def OptMeets (cfg : ScannerConfig) (acc : Option ArbitrageOpportunity) : Prop :=
  ∀ x, acc = some x → meets_criteria cfg x = true

theorem consider_optmeets {cfg : ScannerConfig}
    {acc : Option ArbitrageOpportunity} {cand : ArbitrageOpportunity}
    (h : OptMeets cfg acc) : OptMeets cfg (consider cfg acc cand) := by
  intro x hx
  unfold consider at hx
  by_cases hm : meets_criteria cfg cand = true
  · rw [if_pos hm] at hx
    cases acc with
    | none =>
        injection hx with hx
        rw [← hx]
        exact hm
    | some b =>
        dsimp only at hx
        split_ifs at hx <;> injection hx with hx <;> rw [← hx]
        · exact hm
        · exact h b rfl
  · rw [if_neg hm] at hx
    exact h x hx

theorem best_step_optmeets {cfg : ScannerConfig} {pa pb : PoolEntry}
    {acc : Option ArbitrageOpportunity} (h : OptMeets cfg acc) :
    OptMeets cfg (best_step cfg pa pb acc) := by
  simp only [best_step]
  split_ifs <;>
    first
      | exact h
      | exact consider_optmeets h
      | exact consider_optmeets (consider_optmeets h)

theorem foldl_optmeets {α : Type} {cfg : ScannerConfig}
    (f : Option ArbitrageOpportunity → α → Option ArbitrageOpportunity)
    (hf : ∀ acc x, OptMeets cfg acc → OptMeets cfg (f acc x)) :
    ∀ (l : List α) acc, OptMeets cfg acc → OptMeets cfg (List.foldl f acc l) := by
  intro l
  induction l with
  | nil => intro acc h; simpa using h
  | cons x xs ih =>
      intro acc h
      rw [List.foldl_cons]
      exact ih _ (hf _ _ h)

theorem meets_of_get_best {s : ScannerState} {opp : ArbitrageOpportunity}
    (h : get_best_opportunity s = some opp) :
    meets_criteria s.config opp = true := by
  unfold get_best_opportunity at h
  have hinv : OptMeets s.config
      ((s.groups.filter fun g => 2 ≤ g.pool_indices.length).foldl
        (fun acc g =>
          (pair_positions g.pool_indices.length).foldl
            (fun acc2 ab =>
              best_step s.config (getPool s.pools (g.pool_indices.getD ab.1 0))
                (getPool s.pools (g.pool_indices.getD ab.2 0)) acc2)
            acc)
        none) := by
    apply foldl_optmeets
    · intro acc g hacc
      apply foldl_optmeets
      · intro acc2 ab hacc2
        exact best_step_optmeets hacc2
      · exact hacc
    · intro x hx
      cases hx
  exact hinv opp h

/-- C5.  Every opportunity produced by `scan`, by `scan_with_callback`, or by
`get_best_opportunity` satisfies the three admission conditions: its spread is
at least `min_spread_bps`, its estimated profit is strictly positive (the
`is_zero` test fails), and its size does not exceed `max_position_size` under
the `cmp_u256` ordering the code uses. -/
theorem c5_every_opportunity_meets_criteria :
    ∀ s : ScannerState, ∀ opp : ArbitrageOpportunity,
      (opp ∈ scanList s ∨ opp ∈ scanCallbackList s ∨
          get_best_opportunity s = some opp) →
      s.config.min_spread_bps ≤ opp.spread_bps ∧
        0 < opp.estimated_profit.toNat ∧
        cmp_u256 opp.max_amount s.config.max_position_size ≤ 0 := by
  intro s opp h
  apply meets_criteria_spec
  rcases h with h | h | h
  · unfold scanList at h
    rw [(List.perm_insertionSort profitGe _).mem_iff] at h
    rw [List.mem_flatMap] at h
    obtain ⟨g, _, hmem⟩ := h
    exact meets_of_mem_scan_pair_group hmem
  · unfold scanCallbackList at h
    rw [List.mem_flatMap] at h
    obtain ⟨g, _, hmem⟩ := h
    exact meets_of_mem_scan_pair_group_simd hmem
  · exact meets_of_get_best h

/-- Two pools on distinct DEXes producing exactly one admitted opportunity. -/
def stPair : ScannerState :=
  ⟨cfgOpen, [mkEntry 1 2 1 1, mkEntry 10 1 2 2], [⟨⟨99, 99⟩, [0, 1]⟩]⟩

/-- The single opportunity `scan` emits on `stPair`. -/
def oppPair : ArbitrageOpportunity :=
  ⟨1, 1, 2, 2, U256.ofU64 (2 * 10 ^ 18), U256.ofU64 (10 ^ 17), -9500,
   U256.ofU64 3, U256.ofU64 1, 0⟩

/-- C5, witness: the admission conditions instantiated on the concrete
opportunity `scan` emits on `stPair`. -/
theorem c5_every_opportunity_meets_criteria_witness :
    stPair.config.min_spread_bps ≤ oppPair.spread_bps ∧
      0 < oppPair.estimated_profit.toNat ∧
      cmp_u256 oppPair.max_amount stPair.config.max_position_size ≤ 0 :=
  c5_every_opportunity_meets_criteria stPair oppPair (Or.inl (by decide))

end FlashArb
